import Mathlib

/-!
Verification of the PageAuto page-object library against its specification.

The development shallowly embeds `src/pageauto/page_object.py`:

* the runtime resolution model (`PageObject.find`, the `PageObject.ele`
  property, `PageObject.count`) over an explicit per-descriptor state record,
* the `PageDecorator.switch_frame` decorator as a pure function on an
  abstract browser-context state,
* the constructor `PageObject.__init__` as a tree builder over a
  configuration datatype mirroring the YAML document shape.

Python floats that only ever enter order comparisons (timestamps, `gap`,
`timeout`) are modelled as integers; native selenium element handles are
opaque and modelled as naturals.
-/

namespace PageAuto

/-- Native element handles returned by the browser are opaque to the library;
we model them as naturals. -/
abbrev Elem := Nat

/-- Exceptions raised or propagated by the modelled code paths:
`selenium.common.exceptions.NoSuchElementException`,
`NoSuchFrameException`, Python's `IndexError`, and an arbitrary other
exception thrown by a wrapped action. -/
inductive PyExn where
  | noSuchElement
  | noSuchFrame
  | indexError
  | otherExn
  deriving DecidableEq, Repr

/-- Value returned by `PageObject.find`: Python is untyped, and `find`
returns either the list `self.eles` (fresh query success, or cache hit with
`src='ele'`), a single element (cache hit with default `src` returning
`self.ele`), or `None` (timeout, or cache hit with default `src` whose
`self.ele` is `None`). -/
inductive FindVal where
  | seq (l : List Elem)
  | single (e : Elem)
  | pyNone
  deriving DecidableEq, Repr

/-- Check whether a `FindVal` is Python's `None`. -/
def FindVal.isNone : FindVal → Bool
  | .pyNone => true
  | _ => false

/-- Outcome of a call to `PageObject.find`: a returned value or a raised
exception. -/
inductive FindOutcome where
  | val (v : FindVal)
  | raise (e : PyExn)
  deriving DecidableEq, Repr

/-- Outcome of reading the `PageObject.ele` property. -/
inductive EleOutcome where
  | elem (e : Elem)
  | noneV
  | raise (e : PyExn)
  deriving DecidableEq, Repr

/-- The argument of `PageObject.find`: `src=''` (the default) or
`src='ele'` (the call made from the `ele` property). -/
inductive Src where
  | dflt
  | fromEle
  deriving DecidableEq, Repr

/-- Search scope of a fresh query, summarising lines 216-226 of
`page_object.py`: `driver` when `self.pre_ele is None or
self.pre_ele.is_frame` (the query goes against the WebDriver), otherwise
the parent element resolved by `self.pre_ele.find()` — either its `ele`
(`parentElem`) or, when the parent fails to resolve, the
`NoSuchElementException` branch (`parentNotFound`). -/
inductive ScopeRes where
  | driver
  | parentElem (e : Elem)
  | parentNotFound
  deriving DecidableEq, Repr

/-- Per-descriptor mutable state of a `PageObject` node used by `find`/`ele`:
the cached match list `self.eles` (`None` or a list), the timestamp
`self.last_found`, and the configuration attributes `gap`, `timeout`,
`order` (defaults 1, 5, 0 in `DEFAULT_ATTRIBUTE`). -/
structure PageObjectState where
  eles : Option (List Elem)
  last_found : Int
  gap : Int
  timeout : Int
  order : Int
  deriving DecidableEq, Repr

/-- Length of the cached match list: the `PageObject.count` property,
`len(self.eles)` if `self.eles is not None` else `0`. -/
def count (eles : Option (List Elem)) : Nat :=
  match eles with
  | some l => l.length
  | none => 0

/-- Python list indexing `l[i]`: non-negative indices must be below the
length, negative indices address from the end and must satisfy `-i <= len`;
out-of-range access raises `IndexError`, modelled by `none`. -/
def pyIndex (l : List Elem) (i : Int) : Option Elem :=
  if 0 ≤ i then l.get? i.toNat
  else if i.natAbs ≤ l.length then l.get? (l.length - i.natAbs)
  else none

/-- Semantics of `WebDriverWait(...).until(lambda x: method(x, by, pattern))`:
`tries` lists the successive results of the polled `find_elements` calls
(one entry per poll attempt within the timeout budget); `until` returns the
first truthy — that is, non-empty — result, and raises `TimeoutException`
(modelled by `none`) when every attempt within the budget is empty. -/
def untilNonempty (tries : List (List Elem)) : Option (List Elem) :=
  tries.find? (fun l => !l.isEmpty)

/-- Value computed by the `PageObject.ele` property when `find(src='ele')`
hits the cache and returns the cached list `l`: the guard
`self.find(src='ele') is not None` holds (a list is not `None`), so `ele`
returns `self.eles[self.order]` when `self.order < self.count`
(raising `IndexError` when the subscript is out of range, which only
happens for a negative `order` with `-order > len(l)`), and `None`
otherwise.  This is the value the cache-hit branch of `find` with the
default `src` returns via `return self.ele`. -/
def eleFromCache (l : List Elem) (order : Int) : FindOutcome :=
  if order < (l.length : Int) then
    match pyIndex l order with
    | some e => .val (.single e)
    | none => .raise .indexError
  else .val .pyNone

/-- Embedding of `PageObject.find` (lines 204-244 of `page_object.py`).
`now` is the value of `time.time()` during the call, `scope` the resolved
search scope (see `ScopeRes`), `tries` the successive results of the
polled queries.  Returns the outcome, the updated descriptor state, and a
flag recording whether a fresh element query for this descriptor was issued
to the browser.

* Cache hit (`self.eles is not None and time.time() - self.last_found <
  self.gap`): return `self.eles` for `src='ele'`, `self.ele` otherwise; no
  query is issued.
* Otherwise `self.eles = None`; if the scope is a parent that failed to
  resolve, raise `NoSuchElementException`; otherwise poll: on the first
  non-empty result `l`, set `self.eles = l`, `self.last_found = now` and
  return `l`; on `TimeoutException` return `None` (the exception is caught,
  lines 241-244). -/
def find (po : PageObjectState) (src : Src) (now : Int) (scope : ScopeRes)
    (tries : List (List Elem)) : FindOutcome × PageObjectState × Bool :=
  match po.eles with
  | some l =>
    if now - po.last_found < po.gap then
      match src with
      | .fromEle => (.val (.seq l), po, false)
      | .dflt => (eleFromCache l po.order, po, false)
    else
      let po' := { po with eles := none }
      match scope with
      | .parentNotFound => (.raise .noSuchElement, po', false)
      | _ =>
        match untilNonempty tries with
        | some found => (.val (.seq found), { po' with eles := some found, last_found := now }, true)
        | none => (.val .pyNone, po', true)
  | none =>
    let po' := { po with eles := none }
    match scope with
    | .parentNotFound => (.raise .noSuchElement, po', false)
    | _ =>
      match untilNonempty tries with
      | some found => (.val (.seq found), { po' with eles := some found, last_found := now }, true)
      | none => (.val .pyNone, po', true)

/-- Embedding of the `PageObject.ele` property (lines 180-189):
`if self.find(src='ele') is not None and self.order < self.count: return
self.eles[self.order] else: return None`.  An exception raised by `find`
propagates; the subscript `self.eles[self.order]` raises `IndexError`
when out of range. -/
def ele (po : PageObjectState) (now : Int) (scope : ScopeRes)
    (tries : List (List Elem)) : EleOutcome × PageObjectState :=
  match find po Src.fromEle now scope tries with
  | (.raise e, po', _) => (.raise e, po')
  | (.val v, po', _) =>
    if v.isNone = false ∧ po'.order < (count po'.eles : Int) then
      match pyIndex (po'.eles.getD []) po'.order with
      | some e => (.elem e, po')
      | none => (.raise .indexError, po')
    else (.noneV, po')

/-- Browser context as seen by the `switch_frame` decorator: the top-level
(default) content, or switched into a frame. -/
inductive Ctx where
  | topLevel
  | inFrame
  deriving DecidableEq, Repr

/-- Embedding of `PageDecorator.switch_frame` (lines 37-57).
`frameFound` is `none` when the object has no `frame` attribute of type
`PageObject`, and `some b` when it has one, with `b` recording whether
`obj.frame.find() is not None`.  `inner` is the result of the wrapped
action (which runs in the switched context), `start` the browser context
on entry.

The wrapper sets `mark = True` only after a successful switch; the
wrapped call `ret = func(obj, ...)` is *not* protected by `try/finally`,
so when it raises, the trailing `if mark:
obj.driver.switch_to.default_content()` is never reached and the context
stays inside the frame. -/
def switch_frame {α : Type} (frameFound : Option Bool) (inner : Except PyExn α)
    (start : Ctx) : Except PyExn α × Ctx :=
  match frameFound with
  | none => (inner, start)
  | some false => (.error .noSuchFrame, start)
  | some true =>
    match inner with
    | .ok a => (.ok a, .topLevel)
    | .error e => (.error e, .inFrame)

/-- The reserved child-map key `_ELE_TREE = 'ele_tree'`. -/
def ELE_TREE_KEY : String := "ele_tree"

/-- Embedding of `BY_LIST`, the values of the public attributes of
`selenium.webdriver.common.by.By` (every `By.__dict__` entry whose key
contains no `__`). -/
def BY_LIST : List String :=
  ["id", "xpath", "link text", "partial link text",
   "name", "tag name", "class name", "css selector"]

/-- Embedding of `_INVALID_ELE_NAME = list(object.__dict__.keys()) +
list(WebElement.__dict__.keys()) + [_ELE_TREE]`: the attribute names of
Python's `object`, the attribute names of selenium's `WebElement` for the
pinned selenium version, and the reserved key `'ele_tree'`. -/
def INVALID_ELE_NAME : List String :=
  ["__repr__", "__hash__", "__str__", "__getattribute__", "__setattr__",
   "__delattr__", "__lt__", "__le__", "__eq__", "__ne__", "__gt__", "__ge__",
   "__init__", "__new__", "__reduce_ex__", "__reduce__", "__sizeof__",
   "__format__", "__dir__", "__class__", "__doc__", "__init_subclass__",
   "__subclasshook__",
   "tag_name", "text", "click", "submit", "clear", "get_property",
   "get_attribute", "is_selected", "is_enabled",
   "find_element_by_id", "find_elements_by_id",
   "find_element_by_name", "find_elements_by_name",
   "find_element_by_link_text", "find_elements_by_link_text",
   "find_element_by_partial_link_text", "find_elements_by_partial_link_text",
   "find_element_by_tag_name", "find_elements_by_tag_name",
   "find_element_by_xpath", "find_elements_by_xpath",
   "find_element_by_class_name", "find_elements_by_class_name",
   "find_element_by_css_selector", "find_elements_by_css_selector",
   "send_keys", "is_displayed", "location_once_scrolled_into_view", "size",
   "value_of_css_property", "location", "rect", "screenshot_as_base64",
   "screenshot_as_png", "screenshot", "parent", "id",
   "find_element", "find_elements", "_upload",
   "ele_tree"]

mutual
/-- One entry of the configuration document (the value of one page name in
the YAML mapping): the optional `pattern`, `by` and `is_frame` keys and the
`ele_tree` child mapping (absent modelled as the empty forest — the
constructor behaves identically on an absent and on an empty child map for
everything the development states).  Further keys (`timeout`, `gap`,
`order`, ...) are merged verbatim into the instance dictionary and play no
role in construction, so they are omitted here. -/
inductive Cfg where
  | mk (pattern? : Option String) (byKey? : Option String)
       (is_frame? : Option Bool) (ele_tree : CfgForest)

/-- An ordered mapping from names to configuration entries (Python dict
iteration order). -/
inductive CfgForest where
  | nil
  | cons (name : String) (cfg : Cfg) (rest : CfgForest)
end

/-- The `pattern` key of a configuration entry, when present. -/
def Cfg.pattern? : Cfg → Option String
  | .mk p _ _ _ => p

/-- The `by` key of a configuration entry, when present. -/
def Cfg.byKey? : Cfg → Option String
  | .mk _ b _ _ => b

/-- The `is_frame` key of a configuration entry, when present. -/
def Cfg.is_frame? : Cfg → Option Bool
  | .mk _ _ f _ => f

/-- The `ele_tree` child mapping of a configuration entry. -/
def Cfg.ele_tree : Cfg → CfgForest
  | .mk _ _ _ k => k

mutual
/-- A constructed `PageObject` node.  Object references (`pre_ele`,
`frame`) are modelled as paths: `path` is the list of names from the root
down to this node (so the `pre_ele` chain of a node is exactly the chain
of proper prefixes of its `path`), and `framePath` is the path of the
`frame` reference, `none` when `frame is None`. -/
inductive Node where
  | mk (name : String) (pattern : String) (by_ : String) (is_frame : Bool)
       (path : List String) (framePath : Option (List String))
       (children : NodeForest)

/-- The constructed children of a node, in configuration order. -/
inductive NodeForest where
  | nil
  | cons (node : Node) (rest : NodeForest)
end

/-- The `name` attribute of a constructed node. -/
def Node.name : Node → String
  | .mk n _ _ _ _ _ _ => n

/-- The `pattern` attribute of a constructed node. -/
def Node.pattern : Node → String
  | .mk _ p _ _ _ _ _ => p

/-- The effective `by` attribute of a constructed node (default
`'css selector'`). -/
def Node.by_ : Node → String
  | .mk _ _ b _ _ _ _ => b

/-- The effective `is_frame` attribute of a constructed node (default
`False`). -/
def Node.is_frame : Node → Bool
  | .mk _ _ _ f _ _ _ => f

/-- The path of names from the root to this node. -/
def Node.path : Node → List String
  | .mk _ _ _ _ p _ _ => p

/-- The path of the node's `frame` reference, `none` when `frame is None`. -/
def Node.framePath : Node → Option (List String)
  | .mk _ _ _ _ _ fp _ => fp

/-- The constructed `ele_tree` children of a node. -/
def Node.children : Node → NodeForest
  | .mk _ _ _ _ _ _ ch => ch

/-- Errors escaping `PageObject.__init__`: the `ValueError` raised for an
invalid name; the `ValueError`s the code *intends* to raise for a missing
`pattern` or a disallowed `by` (each carrying the page name the message
would report); and the `AttributeError` actually raised when evaluating
`self.name` before `self.name` has been assigned. -/
inductive BuildErr where
  | valueErrorInvalidName (name : String)
  | valueErrorMissingPattern (pageName : String)
  | valueErrorInvalidBy (pageName byValue : String)
  | attributeErrorName
  deriving DecidableEq, Repr

/-- Reading `self.name` during `__init__`: `self.name` is assigned only
*after* the `pattern` and `by` checks, so at the point where either error
message is formatted the lookup falls through `__getattr__` (no `name` in
the instance dictionary, `'name'` not in `WebElement.__dict__`, no
`ele_tree` yet) and re-raises `AttributeError`. -/
def getattrName (assigned : Option String) : Except BuildErr String :=
  match assigned with
  | some n => .ok n
  | none => .error .attributeErrorName

mutual
/-- Embedding of one loop iteration of `PageObject.__init__` (lines
136-162) building the node for `name : cfg`, with `path` the path of the
`pre_ele` argument (`[]` for the root, whose `pre_ele is None`) and `fp`
the path of the `frame` argument.  In source order:

* `if name in _INVALID_ELE_NAME: raise ValueError(...)`;
* `if 'pattern' not in page: raise ValueError('Page({name}) ...'.format(
  name=self.name))` — formatting the message evaluates `self.name`, which
  is unassigned, so the `AttributeError` from `getattrName none` escapes
  instead of the intended `ValueError`;
* `if 'by' in page and page['by'] not in BY_LIST: raise ValueError(...)` —
  the same unassigned `self.name` lookup applies;
* children are built with `pre_ele=self` and
  `ele_frame = self if page.get('is_frame', False) else self.frame`;
* the defaults `by='css selector'`, `is_frame=False` apply when the keys
  are absent. -/
def buildNode (name : String) (cfg : Cfg) (path : List String)
    (fp : Option (List String)) : Except BuildErr Node :=
  match cfg with
  | .mk pat? byKey? isf? kids =>
    if name ∈ INVALID_ELE_NAME then .error (.valueErrorInvalidName name)
    else
      match pat? with
      | none =>
        match getattrName none with
        | .error e => .error e
        | .ok nm => .error (.valueErrorMissingPattern nm)
      | some pat =>
        match byKey? with
        | some b =>
          if b ∈ BY_LIST then
            match buildForest kids (path ++ [name])
                (if isf?.getD false then some (path ++ [name]) else fp) with
            | .error e => .error e
            | .ok ch => .ok (.mk name pat b (isf?.getD false) (path ++ [name]) fp ch)
          else
            match getattrName none with
            | .error e => .error e
            | .ok nm => .error (.valueErrorInvalidBy nm b)
        | none =>
          match buildForest kids (path ++ [name])
              (if isf?.getD false then some (path ++ [name]) else fp) with
          | .error e => .error e
          | .ok ch => .ok (.mk name pat "css selector" (isf?.getD false) (path ++ [name]) fp ch)

/-- Embedding of the child-construction loop `for ele in self.ele_tree:
self.ele_tree[ele] = PageObject({ele: self.ele_tree[ele]}, pre_ele=self,
frame=ele_frame)`: children are built left to right, the first failure
propagating. -/
def buildForest (f : CfgForest) (path : List String)
    (fp : Option (List String)) : Except BuildErr NodeForest :=
  match f with
  | .nil => .ok .nil
  | .cons n c rest =>
    match buildNode n c path fp with
    | .error e => .error e
    | .ok node =>
      match buildForest rest path fp with
      | .error e => .error e
      | .ok rest' => .ok (.cons node rest')
end

/-- Embedding of `PageObject.__init__` applied to a whole configuration
document `page_dict`: the `for name, page in page_dict.items()` loop ends
with `break`, so only the first entry (in iteration order) is processed;
an empty document builds an attribute-default object describing no page
(`none`). -/
def pageObjectInit (page_dict : CfgForest) : Except BuildErr (Option Node) :=
  match page_dict with
  | .nil => .ok none
  | .cons name cfg _ => (buildNode name cfg [] none).map some

/-- Look a child node up by name in a constructed forest (Python dict keys
are unique, so first match suffices). -/
def lookupForest : NodeForest → String → Option Node
  | .nil, _ => none
  | .cons n rest, s => if n.name = s then some n else lookupForest rest s

/-- Descend from a node along a list of child names, following the
`ele_tree` maps; `nodeAt n p = some d` states that descriptor `d` is
reached from `n` via the names in `p`. -/
def nodeAt (n : Node) : List String → Option Node
  | [] => some n
  | s :: rest =>
    match lookupForest n.children s with
    | some c => nodeAt c rest
    | none => none

/-! Helper lemmas about `find`. -/

/-- A call to `find` never changes the `order` attribute of the descriptor. -/
theorem find_preserves_order (po : PageObjectState) (src : Src) (now : Int)
    (scope : ScopeRes) (tries : List (List Elem)) :
    (find po src now scope tries).2.1.order = po.order := by
  obtain ⟨eles, lf, gp, tm, od⟩ := po
  unfold find
  rcases eles with _ | l
  · dsimp only
    rcases scope with _ | e | _
    · dsimp only
      generalize untilNonempty tries = u
      rcases u with _ | f <;> rfl
    · dsimp only
      generalize untilNonempty tries = u
      rcases u with _ | f <;> rfl
    · rfl
  · dsimp only
    by_cases hg : now - lf < gp
    · rw [if_pos hg]
      rcases src with _ | _ <;> rfl
    · rw [if_neg hg]
      rcases scope with _ | e | _
      · dsimp only
        generalize untilNonempty tries = u
        rcases u with _ | f <;> rfl
      · dsimp only
        generalize untilNonempty tries = u
        rcases u with _ | f <;> rfl
      · rfl

/-- The cache-hit value of `find` with the default `src` is never the match
sequence: `eleFromCache` produces a single element, `None`, or an
`IndexError`. -/
theorem eleFromCache_ne_seq (l : List Elem) (order : Int) (l' : List Elem) :
    eleFromCache l order ≠ .val (.seq l') := by
  unfold eleFromCache
  split
  · split <;> intro h <;> cases h
  · intro h; cases h

/-- When `find` returns the match sequence `l`, the updated state caches
exactly `l` in `self.eles`. -/
theorem find_eles_of_seq (po : PageObjectState) (src : Src) (now : Int)
    (scope : ScopeRes) (tries : List (List Elem)) (l : List Elem)
    (h : (find po src now scope tries).1 = .val (.seq l)) :
    (find po src now scope tries).2.1.eles = some l := by
  obtain ⟨eles, lf, gp, tm, od⟩ := po
  unfold find at h ⊢
  rcases eles with _ | l0
  · dsimp only at h ⊢
    rcases scope with _ | e | _
    · dsimp only at h ⊢
      generalize untilNonempty tries = u at h ⊢
      rcases u with _ | f
      · simp at h
      · simp only [FindOutcome.val.injEq, FindVal.seq.injEq] at h
        subst h
        rfl
    · dsimp only at h ⊢
      generalize untilNonempty tries = u at h ⊢
      rcases u with _ | f
      · simp at h
      · simp only [FindOutcome.val.injEq, FindVal.seq.injEq] at h
        subst h
        rfl
    · simp at h
  · dsimp only at h ⊢
    by_cases hg : now - lf < gp
    · rw [if_pos hg] at h ⊢
      rcases src with _ | _
      · dsimp only at h ⊢
        exact absurd h (eleFromCache_ne_seq l0 od l)
      · dsimp only at h ⊢
        simp only [FindOutcome.val.injEq, FindVal.seq.injEq] at h
        subst h
        rfl
    · rw [if_neg hg] at h ⊢
      rcases scope with _ | e | _
      · dsimp only at h ⊢
        generalize untilNonempty tries = u at h ⊢
        rcases u with _ | f
        · simp at h
        · simp only [FindOutcome.val.injEq, FindVal.seq.injEq] at h
          subst h
          rfl
      · dsimp only at h ⊢
        generalize untilNonempty tries = u at h ⊢
        rcases u with _ | f
        · simp at h
        · simp only [FindOutcome.val.injEq, FindVal.seq.injEq] at h
          subst h
          rfl
      · simp at h

/-! Claim C1. -/

/-- Claim C1, counterexample: a descriptor with an enclosing frame that
resolves, whose wrapped action raises an exception — `switch_frame` returns
with the browser context still inside the frame, not back at the top-level
content, refuting the claimed unconditional switch-back. -/
theorem claim1_counterexample :
    switch_frame (some true) (.error .otherExn : Except PyExn Nat) .topLevel
      = (.error .otherExn, .inFrame) ∧ Ctx.inFrame ≠ Ctx.topLevel :=
  ⟨rfl, by decide⟩

/-- Claim C1, amended: when the enclosing frame is set and resolves, the
action switches into the frame, and the context is switched back to the
top-level content only when the wrapped action returns normally; when the
wrapped action raises, the exception propagates and the browser context
remains inside the frame (the decorator has no `try/finally`). -/
theorem claim1_switch_back_only_on_normal_return {α : Type}
    (inner : Except PyExn α) (start : Ctx) :
    switch_frame (some true) inner start =
      (inner, match inner with | .ok _ => Ctx.topLevel | .error _ => Ctx.inFrame) := by
  cases inner <;> rfl

/-! Claim C2. -/

/-- Claim C2, counterexample: a descriptor whose cache holds the two
matches `[7, 8]` and is still within the `gap` window (`now - last_found =
2 < gap = 5`).  A resolve with the default argument returns the single
element `7` (via `return self.ele`), not the ordered match sequence
`[7, 8]` that a fresh query would return — the cache-hit value does not
have the claimed shape. -/
theorem claim2_counterexample :
    (find ⟨some [7, 8], 10, 5, 5, 0⟩ .dflt 12 .driver []).1 = .val (.single 7) ∧
    (find ⟨some [7, 8], 10, 5, 5, 0⟩ .dflt 12 .driver []).1 ≠ .val (.seq [7, 8]) :=
  ⟨rfl, by decide⟩

/-- Claim C2, amended: a fresh resolve (cache absent or stale, scope
resolved) with the default argument returns the full ordered match
sequence when a poll attempt matches, and `None` when none does; a
cache-hit resolve requested from the `ele` accessor (`src='ele'`) returns
the cached ordered sequence; but a cache-hit resolve with the *default*
argument returns `self.ele` — a single element or `None`, never the
sequence shape. -/
theorem claim2_resolution_shapes :
    (∀ po : PageObjectState, ∀ now : Int, ∀ scope : ScopeRes,
      ∀ tries : List (List Elem), ∀ l : List Elem,
      po.eles = none ∨ po.gap ≤ now - po.last_found →
      scope ≠ ScopeRes.parentNotFound → untilNonempty tries = some l →
      (find po .dflt now scope tries).1 = .val (.seq l)) ∧
    (∀ po : PageObjectState, ∀ now : Int, ∀ scope : ScopeRes,
      ∀ tries : List (List Elem),
      po.eles = none ∨ po.gap ≤ now - po.last_found →
      scope ≠ ScopeRes.parentNotFound → untilNonempty tries = none →
      (find po .dflt now scope tries).1 = .val FindVal.pyNone) ∧
    (∀ po : PageObjectState, ∀ now : Int, ∀ scope : ScopeRes,
      ∀ tries : List (List Elem), ∀ l : List Elem,
      po.eles = some l → now - po.last_found < po.gap →
      (find po .fromEle now scope tries).1 = .val (.seq l)) ∧
    (∀ po : PageObjectState, ∀ now : Int, ∀ scope : ScopeRes,
      ∀ tries : List (List Elem), ∀ l : List Elem,
      po.eles = some l → now - po.last_found < po.gap →
      ∀ l' : List Elem, (find po .dflt now scope tries).1 ≠ .val (.seq l')) := by
  refine ⟨?_, ?_, ?_, ?_⟩
  · intro po now scope tries l hc hs hu
    obtain ⟨eles, lf, gp, tm, od⟩ := po
    dsimp only at hc
    unfold find
    rcases eles with _ | l0
    · dsimp only
      rcases scope with _ | e | _
      · dsimp only; rw [hu]
      · dsimp only; rw [hu]
      · exact absurd rfl hs
    · dsimp only
      rcases hc with hc | hc
      · cases hc
      · rw [if_neg (show ¬ (now - lf < gp) by omega)]
        rcases scope with _ | e | _
        · dsimp only; rw [hu]
        · dsimp only; rw [hu]
        · exact absurd rfl hs
  · intro po now scope tries hc hs hu
    obtain ⟨eles, lf, gp, tm, od⟩ := po
    dsimp only at hc
    unfold find
    rcases eles with _ | l0
    · dsimp only
      rcases scope with _ | e | _
      · dsimp only; rw [hu]
      · dsimp only; rw [hu]
      · exact absurd rfl hs
    · dsimp only
      rcases hc with hc | hc
      · cases hc
      · rw [if_neg (show ¬ (now - lf < gp) by omega)]
        rcases scope with _ | e | _
        · dsimp only; rw [hu]
        · dsimp only; rw [hu]
        · exact absurd rfl hs
  · intro po now scope tries l he hg
    unfold find
    rw [he]
    dsimp only
    rw [if_pos hg]
  · intro po now scope tries l he hg l'
    unfold find
    rw [he]
    dsimp only
    rw [if_pos hg]
    exact eleFromCache_ne_seq l po.order l'

/-- Claim C2, amended, witness: concrete instances of the fresh-query,
timeout, and cache-hit clauses. -/
theorem claim2_resolution_shapes_witness :
    (find ⟨none, 0, 1, 5, 0⟩ .dflt 10 .driver [[], [3, 4]]).1 = .val (.seq [3, 4]) ∧
    (find ⟨none, 0, 1, 5, 0⟩ .dflt 10 .driver [[], []]).1 = .val FindVal.pyNone ∧
    (find ⟨some [7, 8], 10, 5, 5, 0⟩ .fromEle 12 .driver []).1 = .val (.seq [7, 8]) ∧
    (find ⟨some [7, 8], 10, 5, 5, 0⟩ .dflt 12 .driver []).1 ≠ .val (.seq [7, 8]) :=
  ⟨claim2_resolution_shapes.1 ⟨none, 0, 1, 5, 0⟩ 10 .driver [[], [3, 4]] [3, 4]
      (Or.inl rfl) (by decide) (by decide),
   claim2_resolution_shapes.2.1 ⟨none, 0, 1, 5, 0⟩ 10 .driver [[], []]
      (Or.inl rfl) (by decide) (by decide),
   claim2_resolution_shapes.2.2.1 ⟨some [7, 8], 10, 5, 5, 0⟩ 12 .driver [] [7, 8]
      rfl (by decide),
   claim2_resolution_shapes.2.2.2 ⟨some [7, 8], 10, 5, 5, 0⟩ 12 .driver [] [7, 8]
      rfl (by decide) [7, 8]⟩

/-! Claim C3. -/

/-- Claim C3, code bug: a configuration whose descriptor lacks `pattern`
makes construction fail, but *not* with the configuration `ValueError`
naming the offending page — formatting that error message evaluates
`self.name` before `self.name` is assigned, so construction fails with an
`AttributeError` instead. -/
theorem claim3_missing_pattern_attribute_error :
    pageObjectInit (.cons "login" (.mk none (some "id") none .nil) .nil)
      = .error .attributeErrorName ∧
    ∀ s : String,
      pageObjectInit (.cons "login" (.mk none (some "id") none .nil) .nil)
        ≠ .error (.valueErrorMissingPattern s) := by
  refine ⟨rfl, ?_⟩
  intro s h
  have h2 : BuildErr.attributeErrorName = BuildErr.valueErrorMissingPattern s := by
    have h3 : (Except.error BuildErr.attributeErrorName : Except BuildErr (Option Node))
        = .error (.valueErrorMissingPattern s) := h
    exact Except.error.inj h3
  cases h2

/-! Claim C8. -/

/-- Claim C8, code bug: a configuration whose descriptor carries
`by: "bogus-strategy"` (not in `BY_LIST`) does make tree construction fail
at build time — no tree is ever produced — but the failure is an
`AttributeError`, not the intended configuration `ValueError`: formatting
that error message evaluates the unassigned `self.name`. -/
theorem claim8_invalid_by_attribute_error :
    pageObjectInit (.cons "login" (.mk (some "#x") (some "bogus-strategy") none .nil) .nil)
      = .error .attributeErrorName ∧
    (∀ t : Option Node,
      pageObjectInit (.cons "login" (.mk (some "#x") (some "bogus-strategy") none .nil) .nil)
        ≠ .ok t) ∧
    ∀ s b : String,
      pageObjectInit (.cons "login" (.mk (some "#x") (some "bogus-strategy") none .nil) .nil)
        ≠ .error (.valueErrorInvalidBy s b) := by
  refine ⟨rfl, ?_, ?_⟩
  · intro t h
    have h3 : (Except.error BuildErr.attributeErrorName : Except BuildErr (Option Node))
        = .ok t := h
    cases h3
  · intro s b h
    have h3 : (Except.error BuildErr.attributeErrorName : Except BuildErr (Option Node))
        = .error (.valueErrorInvalidBy s b) := h
    cases Except.error.inj h3

/-! Claim C9. -/

/-- Claim C9: constructing a `PageObject` from a configuration document
with several top-level names processes only the first entry in iteration
order — the `for` loop ends with `break` — so the result is identical to
building from the first entry alone, and the remaining entries are ignored
without any error. -/
theorem claim9_first_entry_only (name : String) (cfg : Cfg) (rest : CfgForest) :
    pageObjectInit (.cons name cfg rest) = pageObjectInit (.cons name cfg .nil) :=
  rfl

/-- Characterisation of the non-cached path of `find`: when the cache is
absent or stale and the search scope resolved, the call polls and either
caches and returns the first non-empty result or returns `None` on
timeout; in both cases a fresh query was issued. -/
theorem find_fresh_result (po : PageObjectState) (src : Src) (now : Int)
    (scope : ScopeRes) (tries : List (List Elem))
    (hc : po.eles = none ∨ po.gap ≤ now - po.last_found)
    (hs : scope ≠ ScopeRes.parentNotFound) :
    find po src now scope tries =
      match untilNonempty tries with
      | some found => (.val (.seq found), { po with eles := some found, last_found := now }, true)
      | none => (.val FindVal.pyNone, { po with eles := none }, true) := by
  obtain ⟨eles, lf, gp, tm, od⟩ := po
  dsimp only at hc
  unfold find
  rcases eles with _ | l0
  · dsimp only
    rcases scope with _ | e | _
    · rfl
    · rfl
    · exact absurd rfl hs
  · dsimp only
    rcases hc with hc | hc
    · cases hc
    · rw [if_neg (show ¬ (now - lf < gp) by omega)]
      rcases scope with _ | e | _
      · rfl
      · rfl
      · exact absurd rfl hs

/-! Claim C4. -/

/-- Claim C4: for every descriptor and every number of poll attempts, when
no poll attempt within the timeout budget obtains a non-empty match list,
`find` returns `None` to the caller — the `TimeoutException` raised by the
wait is caught by the handler in `find` and never propagates. -/
theorem claim4_timeout_yields_absent (po : PageObjectState) (src : Src)
    (now : Int) (scope : ScopeRes) (tries : List (List Elem))
    (hc : po.eles = none ∨ po.gap ≤ now - po.last_found)
    (hs : scope ≠ ScopeRes.parentNotFound)
    (ht : ∀ t ∈ tries, t = []) :
    (find po src now scope tries).1 = .val FindVal.pyNone ∧
    ∀ e : PyExn, (find po src now scope tries).1 ≠ .raise e := by
  have hu : untilNonempty tries = none := by
    unfold untilNonempty
    rw [List.find?_eq_none]
    intro t htt
    rw [ht t htt]
    simp
  have h1 : (find po src now scope tries).1 = .val FindVal.pyNone := by
    rw [find_fresh_result po src now scope tries hc hs, hu]
  refine ⟨h1, ?_⟩
  intro e he
  rw [h1] at he
  cases he

/-- Claim C4, witness: a descriptor with an empty cache, three poll
attempts all empty — `find` returns `None` and raises nothing. -/
theorem claim4_timeout_yields_absent_witness :
    (find ⟨none, 0, 1, 5, 0⟩ .dflt 10 .driver [[], [], []]).1 = .val FindVal.pyNone ∧
    ∀ e : PyExn, (find ⟨none, 0, 1, 5, 0⟩ .dflt 10 .driver [[], [], []]).1 ≠ .raise e :=
  claim4_timeout_yields_absent ⟨none, 0, 1, 5, 0⟩ .dflt 10 .driver [[], [], []]
    (Or.inl rfl) (by decide) (by decide)

/-! Claim C5. -/

/-- Claim C5: for a descriptor whose previous resolution succeeded
(`self.eles` holds a list), a resolution issued while less than `gap`
seconds have elapsed since `last_found` issues no new element query to the
browser, while a resolution issued once `gap` or more seconds have elapsed
(with the scope resolved) issues a fresh query. -/
theorem claim5_cache_window (po : PageObjectState) (l : List Elem) (src : Src)
    (now : Int) (scope : ScopeRes) (tries : List (List Elem)) :
    (po.eles = some l → now - po.last_found < po.gap →
      (find po src now scope tries).2.2 = false) ∧
    (po.eles = some l → po.gap ≤ now - po.last_found →
      scope ≠ ScopeRes.parentNotFound →
      (find po src now scope tries).2.2 = true) := by
  constructor
  · intro he hg
    unfold find
    rw [he]
    dsimp only
    rw [if_pos hg]
    rcases src with _ | _ <;> rfl
  · intro he hg hs
    rw [find_fresh_result po src now scope tries (Or.inr hg) hs]
    generalize untilNonempty tries = u
    rcases u with _ | f <;> rfl

/-- Claim C5, witness: with `gap = 5`, a second resolve 2 seconds after a
success issues no query; a resolve 12 seconds after issues one. -/
theorem claim5_cache_window_witness :
    (find ⟨some [7], 10, 5, 5, 0⟩ .dflt 12 .driver [[3]]).2.2 = false ∧
    (find ⟨some [7], 0, 5, 5, 0⟩ .dflt 12 .driver [[3]]).2.2 = true :=
  ⟨(claim5_cache_window ⟨some [7], 10, 5, 5, 0⟩ [7] .dflt 12 .driver [[3]]).1
      rfl (by decide),
   (claim5_cache_window ⟨some [7], 0, 5, 5, 0⟩ [7] .dflt 12 .driver [[3]]).2
      rfl (by decide) (by decide)⟩

/-! Claim C6. -/

/-- Claim C6: when resolution succeeds with a match list no longer than the
descriptor's `order` index, the `ele` accessor returns `None` — the guard
`self.order < self.count` fails, so the subscript is never evaluated and no
out-of-bounds `IndexError` can arise. -/
theorem claim6_order_beyond_matches_none (po : PageObjectState) (now : Int)
    (scope : ScopeRes) (tries : List (List Elem)) (l : List Elem)
    (hf : (find po Src.fromEle now scope tries).1 = .val (.seq l))
    (ho : (l.length : Int) ≤ po.order) :
    (ele po now scope tries).1 = EleOutcome.noneV := by
  have hord := find_preserves_order po Src.fromEle now scope tries
  have hel := find_eles_of_seq po Src.fromEle now scope tries l hf
  unfold ele
  rcases hr : find po Src.fromEle now scope tries with ⟨o, po', q⟩
  rw [hr] at hf hel hord
  dsimp only at hf hel hord ⊢
  subst hf
  dsimp only
  have hcond : ¬((FindVal.seq l).isNone = false ∧ po'.order < (count po'.eles : Int)) := by
    intro hcon
    have h2 := hcon.2
    rw [hel, hord] at h2
    simp only [count] at h2
    omega
  rw [if_neg hcond]

/-- Claim C6, witness: `order = 2` with exactly one cached match — `ele`
returns `None`. -/
theorem claim6_order_beyond_matches_none_witness :
    (ele ⟨some [7], 10, 5, 5, 2⟩ 12 .driver []).1 = EleOutcome.noneV :=
  claim6_order_beyond_matches_none ⟨some [7], 10, 5, 5, 2⟩ 12 .driver [] [7]
    (by decide) (by decide)

/-! Claim C10. -/

/-- Claim C10, counterexample: a descriptor with `order = -2` whose
resolution succeeds with one match — the bounds check passes, but the
subscript `self.eles[-2]` raises `IndexError`: `ele` neither returns a
match indexed from the end nor `None`. -/
theorem claim10_counterexample :
    (ele ⟨some [7], 10, 5, 5, -2⟩ 12 .driver []).1 = EleOutcome.raise PyExn.indexError ∧
    (∀ e : Elem, (ele ⟨some [7], 10, 5, 5, -2⟩ 12 .driver []).1 ≠ EleOutcome.elem e) ∧
    (ele ⟨some [7], 10, 5, 5, -2⟩ 12 .driver []).1 ≠ EleOutcome.noneV := by
  refine ⟨rfl, ?_, by decide⟩
  intro e h
  have h2 : EleOutcome.raise PyExn.indexError = EleOutcome.elem e := h
  cases h2

/-- Claim C10, amended: for a negative `order`, the bounds check
`self.order < self.count` always passes; the `ele` accessor then returns
the match `|order|` places from the end of the match list when
`|order| <= count`, and raises `IndexError` (rather than returning
"no element") when `|order| > count`. -/
theorem claim10_negative_order (po : PageObjectState) (now : Int)
    (scope : ScopeRes) (tries : List (List Elem)) (l : List Elem) (e : Elem)
    (hf : (find po Src.fromEle now scope tries).1 = .val (.seq l))
    (hneg : po.order < 0) :
    (po.order < (count (some l) : Int)) ∧
    (po.order.natAbs ≤ l.length → l.get? (l.length - po.order.natAbs) = some e →
      (ele po now scope tries).1 = EleOutcome.elem e) ∧
    (l.length < po.order.natAbs →
      (ele po now scope tries).1 = EleOutcome.raise PyExn.indexError) := by
  have hord := find_preserves_order po Src.fromEle now scope tries
  have hel := find_eles_of_seq po Src.fromEle now scope tries l hf
  refine ⟨by simp only [count]; omega, ?_, ?_⟩
  · intro hin hget
    unfold ele
    rcases hr : find po Src.fromEle now scope tries with ⟨o, po', q⟩
    rw [hr] at hf hel hord
    dsimp only at hf hel hord ⊢
    subst hf
    dsimp only
    have hcond : (FindVal.seq l).isNone = false ∧ po'.order < (count po'.eles : Int) := by
      refine ⟨rfl, ?_⟩
      rw [hel, hord]
      simp only [count]
      omega
    rw [if_pos hcond, hel, hord]
    dsimp only [Option.getD]
    unfold pyIndex
    rw [if_neg (show ¬ (0 ≤ po.order) by omega), if_pos hin, hget]
  · intro hout
    unfold ele
    rcases hr : find po Src.fromEle now scope tries with ⟨o, po', q⟩
    rw [hr] at hf hel hord
    dsimp only at hf hel hord ⊢
    subst hf
    dsimp only
    have hcond : (FindVal.seq l).isNone = false ∧ po'.order < (count po'.eles : Int) := by
      refine ⟨rfl, ?_⟩
      rw [hel, hord]
      simp only [count]
      omega
    rw [if_pos hcond, hel, hord]
    dsimp only [Option.getD]
    unfold pyIndex
    rw [if_neg (show ¬ (0 ≤ po.order) by omega),
        if_neg (show ¬ (po.order.natAbs ≤ l.length) by omega)]

/-- Claim C10, amended, witness: `order = -1` with two cached matches —
the bounds check passes and `ele` returns the last match. -/
theorem claim10_negative_order_witness :
    ((⟨some [7, 8], 10, 5, 5, -1⟩ : PageObjectState).order
        < (count (some [7, 8]) : Int)) ∧
    (ele ⟨some [7, 8], 10, 5, 5, -1⟩ 12 .driver []).1 = EleOutcome.elem 8 :=
  ⟨(claim10_negative_order ⟨some [7, 8], 10, 5, 5, -1⟩ 12 .driver [] [7, 8] 8
      (by decide) (by decide)).1,
   (claim10_negative_order ⟨some [7, 8], 10, 5, 5, -1⟩ 12 .driver [] [7, 8] 8
      (by decide) (by decide)).2.1 (by decide) (by decide)⟩

/-! Helper lemmas about the tree builder, towards claim C7. -/

/-- Shape of a successfully built node: its attributes are exactly the
validated configuration values, its `path` extends the parent path by its
own name, its `framePath` is the incoming `frame` argument, and its
children were built against the effective child frame
(`ele_frame = self if page.get('is_frame', False) else self.frame`). -/
theorem buildNode_ok (name : String) (cfg : Cfg) (path : List String)
    (fp : Option (List String)) (node : Node)
    (h : buildNode name cfg path fp = .ok node) :
    node.name = name ∧ node.path = path ++ [name] ∧ node.framePath = fp ∧
    node.is_frame = cfg.is_frame?.getD false ∧
    buildForest cfg.ele_tree (path ++ [name])
      (if cfg.is_frame?.getD false then some (path ++ [name]) else fp)
      = .ok node.children := by
  rcases cfg with ⟨pat?, bk?, isf?, kids⟩
  simp only [Cfg.is_frame?, Cfg.ele_tree]
  simp only [buildNode] at h
  split at h
  · cases h
  · rcases pat? with _ | pat
    · dsimp only at h
      simp only [getattrName] at h
      cases h
    · dsimp only at h
      rcases bk? with _ | b
      · dsimp only at h
        rcases hbf : buildForest kids (path ++ [name])
            (if isf?.getD false then some (path ++ [name]) else fp) with ⟨e⟩ | ⟨ch⟩
        · rw [hbf] at h
          cases h
        · rw [hbf] at h
          dsimp only at h
          cases h
          exact ⟨rfl, rfl, rfl, rfl, rfl⟩
      · dsimp only at h
        split at h
        · rcases hbf : buildForest kids (path ++ [name])
              (if isf?.getD false then some (path ++ [name]) else fp) with ⟨e⟩ | ⟨ch⟩
          · rw [hbf] at h
            cases h
          · rw [hbf] at h
            dsimp only at h
            cases h
            exact ⟨rfl, rfl, rfl, rfl, rfl⟩
        · simp only [getattrName] at h
          cases h

/-- A node looked up by name in a successfully built forest was itself
built by `buildNode` from some child configuration, with the same parent
path and frame argument. -/
theorem buildForest_lookup (f : CfgForest) (path : List String)
    (fp : Option (List String)) (ch : NodeForest) (s : String) (c : Node)
    (hb : buildForest f path fp = .ok ch)
    (hl : lookupForest ch s = some c) :
    ∃ ccfg : Cfg, buildNode s ccfg path fp = .ok c := by
  match f with
  | .nil =>
    simp only [buildForest] at hb
    cases hb
    simp only [lookupForest] at hl
    cases hl
  | .cons n c0 rest =>
    simp only [buildForest] at hb
    rcases hbn : buildNode n c0 path fp with ⟨e⟩ | ⟨node⟩
    · rw [hbn] at hb
      cases hb
    · rw [hbn] at hb
      dsimp only at hb
      rcases hbr : buildForest rest path fp with ⟨e⟩ | ⟨rest'⟩
      · rw [hbr] at hb
        cases hb
      · rw [hbr] at hb
        dsimp only at hb
        cases hb
        simp only [lookupForest] at hl
        by_cases hns : node.name = s
        · rw [if_pos hns] at hl
          have hcc : node = c := Option.some.inj hl
          subst hcc
          have hn := (buildNode_ok n c0 path fp node hbn).1
          have hsn : s = n := by rw [← hns, hn]
          refine ⟨c0, ?_⟩
          rw [hsn]
          exact hbn
        · rw [if_neg hns] at hl
          exact buildForest_lookup rest path fp rest' s c hbr hl

/-- The path of every descendant reached by `nodeAt` extends the root
node's path by exactly the list of names descended through. -/
theorem nodeAt_path (p : List String) (name : String) (cfg : Cfg)
    (path : List String) (fp : Option (List String)) (node d : Node)
    (hb : buildNode name cfg path fp = .ok node)
    (hd : nodeAt node p = some d) :
    d.path = node.path ++ p := by
  match p with
  | [] =>
    simp only [nodeAt] at hd
    cases hd
    simp
  | s :: rest =>
    simp only [nodeAt] at hd
    rcases hlc : lookupForest node.children s with _ | c
    · rw [hlc] at hd
      cases hd
    · rw [hlc] at hd
      dsimp only at hd
      obtain ⟨hn, hp, hf, hif, hch⟩ := buildNode_ok name cfg path fp node hb
      obtain ⟨ccfg, hc⟩ := buildForest_lookup cfg.ele_tree (path ++ [name])
        (if cfg.is_frame?.getD false then some (path ++ [name]) else fp)
        node.children s c hch hlc
      have ih := nodeAt_path rest s ccfg (path ++ [name])
        (if cfg.is_frame?.getD false then some (path ++ [name]) else fp) c d hc hd
      have hcp := (buildNode_ok s ccfg (path ++ [name])
        (if cfg.is_frame?.getD false then some (path ++ [name]) else fp) c hc).2.1
      rw [ih, hcp, hp]
      simp

/-- Every descendant of a successfully built node was itself built by
`buildNode`, with its own stored `framePath` as the frame argument. -/
theorem nodeAt_built (p : List String) (name : String) (cfg : Cfg)
    (path : List String) (fp : Option (List String)) (node n : Node)
    (hb : buildNode name cfg path fp = .ok node)
    (hd : nodeAt node p = some n) :
    ∃ nm : String, ∃ ncfg : Cfg, ∃ npath : List String,
      buildNode nm ncfg npath n.framePath = .ok n := by
  match p with
  | [] =>
    simp only [nodeAt] at hd
    have hnn : node = n := Option.some.inj hd
    subst hnn
    have hf := (buildNode_ok name cfg path fp node hb).2.2.1
    refine ⟨name, cfg, path, ?_⟩
    rw [hf]
    exact hb
  | s :: rest =>
    simp only [nodeAt] at hd
    rcases hlc : lookupForest node.children s with _ | c
    · rw [hlc] at hd
      cases hd
    · rw [hlc] at hd
      dsimp only at hd
      obtain ⟨hn, hp, hf, hif, hch⟩ := buildNode_ok name cfg path fp node hb
      obtain ⟨ccfg, hc⟩ := buildForest_lookup cfg.ele_tree (path ++ [name])
        (if cfg.is_frame?.getD false then some (path ++ [name]) else fp)
        node.children s c hch hlc
      exact nodeAt_built rest s ccfg (path ++ [name])
        (if cfg.is_frame?.getD false then some (path ++ [name]) else fp) c n hc hd

/-- Frame invariant of the builder: the `framePath` of every node of a
built subtree is either the frame argument the subtree was built against,
or the path of a frame-marked node inside the subtree that is a proper
ancestor of the referring node. -/
theorem build_framePath_spec (p : List String) (name : String) (cfg : Cfg)
    (path : List String) (fp : Option (List String)) (node d : Node)
    (hb : buildNode name cfg path fp = .ok node)
    (hd : nodeAt node p = some d) :
    ∀ q : List String, d.framePath = some q →
      fp = some q ∨
      ∃ p', p' <+: p ∧ p'.length < p.length ∧
        ∃ a : Node, nodeAt node p' = some a ∧ a.path = q ∧ a.is_frame = true ∧
          q <+: d.path ∧ q.length < d.path.length := by
  match p with
  | [] =>
    intro q hq
    simp only [nodeAt] at hd
    have hnd : node = d := Option.some.inj hd
    subst hnd
    have hf := (buildNode_ok name cfg path fp node hb).2.2.1
    left
    rw [← hf]
    exact hq
  | s :: rest =>
    intro q hq
    have hdp : d.path = node.path ++ (s :: rest) :=
      nodeAt_path (s :: rest) name cfg path fp node d hb hd
    simp only [nodeAt] at hd
    rcases hlc : lookupForest node.children s with _ | c
    · rw [hlc] at hd
      cases hd
    · rw [hlc] at hd
      dsimp only at hd
      obtain ⟨hn, hp, hf, hif, hch⟩ := buildNode_ok name cfg path fp node hb
      obtain ⟨ccfg, hc⟩ := buildForest_lookup cfg.ele_tree (path ++ [name])
        (if cfg.is_frame?.getD false then some (path ++ [name]) else fp)
        node.children s c hch hlc
      have ih := build_framePath_spec rest s ccfg (path ++ [name])
        (if cfg.is_frame?.getD false then some (path ++ [name]) else fp) c d hc hd q hq
      rcases ih with hle | ⟨p'', hpp, hplen, a, ha, hap, haf, hqd, hql⟩
      · by_cases hfr : cfg.is_frame?.getD false = true
        · rw [if_pos hfr] at hle
          right
          refine ⟨[], ⟨s :: rest, rfl⟩, by simp, node, rfl, ?_, ?_, ?_, ?_⟩
          · rw [hp]
            exact Option.some.inj hle
          · rw [hif]
            exact hfr
          · rw [hdp, hp]
            exact ⟨s :: rest, by rw [Option.some.inj hle]⟩
          · have hq2 : q = path ++ [name] := (Option.some.inj hle).symm
            rw [hdp, hp, hq2]
            simp
        · rw [if_neg hfr] at hle
          left
          exact hle
      · right
        refine ⟨s :: p'', ?_, by simpa using hplen, a, ?_, hap, haf, hqd, hql⟩
        · obtain ⟨t, ht⟩ := hpp
          exact ⟨t, by rw [List.cons_append, ht]⟩
        · simp only [nodeAt]
          rw [hlc]
          exact ha

/-! Claim C7. -/

/-- Claim C7: in every tree built from a configuration document, each
descriptor's `frame` reference, when set, denotes a frame-marked node that
is a proper ancestor of the descriptor — reachable from the descriptor by
following `pre_ele` parent links, which in the path model means its path
is a proper prefix of the descriptor's path; and, equivalently at every
depth, a child's `frame` is its parent when the parent is frame-marked and
is otherwise the parent's own `frame`. -/
theorem claim7_frame_is_ancestor (dict : CfgForest) (root : Node)
    (hb : pageObjectInit dict = .ok (some root)) :
    (∀ p : List String, ∀ d : Node, ∀ q : List String,
      nodeAt root p = some d → d.framePath = some q →
      q <+: d.path ∧ q.length < d.path.length ∧
      ∃ p', p' <+: p ∧ p'.length < p.length ∧
        ∃ a : Node, nodeAt root p' = some a ∧ a.path = q ∧ a.is_frame = true) ∧
    (∀ p : List String, ∀ n c : Node, ∀ s : String,
      nodeAt root p = some n → lookupForest n.children s = some c →
      c.framePath = if n.is_frame then some n.path else n.framePath) := by
  rcases dict with _ | ⟨name, cfg, rest⟩
  · simp only [pageObjectInit] at hb
    cases hb
  · simp only [pageObjectInit] at hb
    rcases hbn : buildNode name cfg [] none with ⟨e⟩ | ⟨node⟩
    · rw [hbn] at hb
      simp only [Except.map] at hb
      cases hb
    · rw [hbn] at hb
      simp only [Except.map] at hb
      have hroot : node = root := Option.some.inj (Except.ok.inj hb)
      subst hroot
      constructor
      · intro p d q hd hq
        have h := build_framePath_spec p name cfg [] none node d hbn hd q hq
        rcases h with h | ⟨p', hpp, hplen, a, ha, hap, haf, hqd, hql⟩
        · cases h
        · exact ⟨hqd, hql, p', hpp, hplen, a, ha, hap, haf⟩
      · intro p n c s hp hlc
        obtain ⟨nm, ncfg, npath, hbn2⟩ := nodeAt_built p name cfg [] none node n hbn hp
        obtain ⟨hn2, hp2, hf2, hif2, hch2⟩ := buildNode_ok nm ncfg npath n.framePath n hbn2
        obtain ⟨ccfg, hc⟩ := buildForest_lookup ncfg.ele_tree (npath ++ [nm])
          (if ncfg.is_frame?.getD false then some (npath ++ [nm]) else n.framePath)
          n.children s c hch2 hlc
        have hcf := (buildNode_ok s ccfg (npath ++ [nm])
          (if ncfg.is_frame?.getD false then some (npath ++ [nm]) else n.framePath)
          c hc).2.2.1
        rw [hcf, ← hif2, ← hp2]

/-- Concrete two-entry configuration witnessing claim C7: a frame-marked
page `demo` with one child element `kid`. -/
def demoDict : CfgForest :=
  .cons "demo" (.mk (some "#r") none (some true)
    (.cons "kid" (.mk (some "#k") none none .nil) .nil)) .nil

/-- The node the builder produces for the child of `demoDict`: its `frame`
reference is the root, its `pre_ele` parent. -/
def demoKid : Node :=
  .mk "kid" "#k" "css selector" false ["demo", "kid"] (some ["demo"]) .nil

/-- The root node the builder produces from `demoDict`. -/
def demoRoot : Node :=
  .mk "demo" "#r" "css selector" true ["demo"] none (.cons demoKid .nil)

/-- Claim C7, witness: in the tree built from `demoDict`, the child's
`frame` reference `["demo"]` is a proper prefix of the child's own path,
and is the path of a frame-marked ancestor node in the tree. -/
theorem claim7_frame_is_ancestor_witness :
    (["demo"] : List String) <+: demoKid.path ∧
    (["demo"] : List String).length < demoKid.path.length ∧
    ∃ p', p' <+: ["kid"] ∧ p'.length < (["kid"] : List String).length ∧
      ∃ a : Node, nodeAt demoRoot p' = some a ∧ a.path = ["demo"] ∧ a.is_frame = true :=
  (claim7_frame_is_ancestor demoDict demoRoot rfl).1 ["kid"] demoKid ["demo"] rfl rfl

end PageAuto
